import Mathlib

/-!
# exercise2: cleaning a CSV file of iris measurements

A shallow embedding of `topics/data_science/csv_io/exercises/exercise2/exercise2.go`.

* `cleanFile` reads rows from a `csv.Reader`, parses every value of a row in
  positional order, logs and drops the rows that fail, and returns the rest.
* `main` converts the records back to rows of strings with
  `strconv.FormatFloat(x, 'f', 2, 64)`.

The CSV reader is a list of the results that successive calls of `Read`
return; the standard logger is the list of the messages handed to
`log.Printf`; `strconv.ParseFloat(value, 64)` is a parameter `parseFloat`
of the embedding (`none` stands for a non-nil error), instantiated by the
model `ParseFloat` where a concrete run is evaluated.
-/

set_option autoImplicit false

namespace Exercise2

/-! ## Data model -/

/-- A `float64`, held as its IEEE-754 binary64 bit pattern (`math.Float64bits`). -/
structure Float64 where
  bits : Nat
  deriving DecidableEq, Repr

/-- The zero value of `float64`. -/
def Float64.zero : Float64 := ⟨0⟩

/-- CSVRecord contains a successfully parsed row of the CSV file. `ParseError` is
the Go `error` value: `none` is `nil`, `some msg` an error with that message. -/
structure CSVRecord where
  SepalLength : Float64
  SepalWidth : Float64
  PetalLength : Float64
  PetalWidth : Float64
  Species : String
  ParseError : Option String
  deriving DecidableEq, Repr

/-- The zero value that `var csvRecord CSVRecord` declares. -/
def CSVRecord.zero : CSVRecord :=
  { SepalLength := Float64.zero, SepalWidth := Float64.zero, PetalLength := Float64.zero,
    PetalWidth := Float64.zero, Species := "", ParseError := none }

/-- The error returned by `reader.Read()`: `io.EOF` or any other error
(`csv.ErrFieldCount`, a `csv.ParseError`, an error of the underlying file). -/
inductive ReadError where
  | EOF
  | other (msg : String)
  deriving DecidableEq, Repr

/-- One result of `reader.Read()`: the record and the error (`none` is `nil`). -/
structure ReadResult where
  record : List String
  err : Option ReadError
  deriving DecidableEq, Repr

/-- A row read without error. -/
def row (fields : List String) : ReadResult := { record := fields, err := none }

/-- The state of the read loop of `cleanFile`: the slice of records, the line
counter and the messages logged so far. -/
structure LoopState where
  csvData : List CSVRecord
  line : Nat
  logged : List String
  deriving DecidableEq, Repr

/-! ## Model of strconv

The conversions of the Go standard library that the program calls, modelled
from their documented behaviour: `ParseFloat` accepts the decimal and
hexadecimal floating-point literals of Go (digits may be separated by
underscores), `inf`, `infinity` and `nan`, and returns the nearest `float64`,
rounded half to even; `FormatFloat(f, 'f', 2, 64)` prints the exact value of
`f` rounded half to even to two decimals. -/

/-- Round the quotient `n / d` to the nearest integer, ties to even. -/
def roundHalfEven (n d : Nat) : Nat :=
  let q := n / d
  let r := n % d
  if d < 2 * r ∨ (2 * r = d ∧ q % 2 = 1) then q + 1 else q

/-- The largest `e ≤ 2047` with `2 ^ (e + 52) ≤ t`, or `0` when there is none. -/
def binExp (t : Nat) : Nat :=
  [1024, 512, 256, 128, 64, 32, 16, 8, 4, 2, 1].foldl
    (fun e b => if 2 ^ (e + b + 52) ≤ t then e + b else e) 0

/-- The `float64` nearest to `± num / den` (ties to even, subnormals included);
`none` when the rounded value overflows, which `ParseFloat` reports as `ErrRange`. -/
def float64FromRatio (neg : Bool) (num den : Nat) : Option Float64 :=
  let n := num * 2 ^ 1074
  let e := binExp (n / den)
  let m0 := roundHalfEven n (den * 2 ^ e)
  let m := if m0 = 2 ^ 53 then 2 ^ 52 else m0
  let e1 := if m0 = 2 ^ 53 then e + 1 else e
  let sign := if neg then 2 ^ 63 else 0
  if m < 2 ^ 52 then some ⟨sign + m⟩
  else if 2046 ≤ e1 then none
  else some ⟨sign + (e1 + 1) * 2 ^ 52 + (m - 2 ^ 52)⟩

/-- The function `special` of strconv followed by the check of `ParseFloat` that
the whole string was consumed: an optionally signed `inf` or `infinity`, or an
unsigned `nan`, in any case of the letters. -/
def special (s : List Char) : Option Float64 :=
  let lowered := s.map Char.toLower
  let body := match s with
    | '+' :: _ => lowered.tail
    | '-' :: _ => lowered.tail
    | _ => lowered
  if body = "inf".data ∨ body = "infinity".data then
    match s with
    | '-' :: _ => some ⟨0xFFF0000000000000⟩
    | _ => some ⟨0x7FF0000000000000⟩
  else if lowered = "nan".data then some ⟨0x7FF8000000000001⟩
  else none

/-- A letter that is a hexadecimal digit: `'a' <= lower(c) && lower(c) <= 'f'`. -/
def isHexLetter (c : Char) : Bool :=
  (97 ≤ c.toNat && c.toNat ≤ 102) || (65 ≤ c.toNat && c.toNat ≤ 70)

/-- The value of a digit of a mantissa. -/
def digitValue (c : Char) : Nat :=
  if c.isDigit then c.toNat - 48 else c.toLower.toNat - 97 + 10

/-- The function `underscoreOK` of strconv, after the optional sign and base
marker: `saw` is the last character seen (`'0'` a digit, `'_'` an underscore,
`'!'` anything else, `'^'` the start). -/
def underscoreLoop (hex : Bool) : List Char → Char → Bool
  | [], saw => saw != '_'
  | c :: cs, saw =>
    if c.isDigit || (hex && isHexLetter c) then underscoreLoop hex cs '0'
    else if c = '_' then (if saw != '0' then false else underscoreLoop hex cs '_')
    else if saw = '_' then false
    else underscoreLoop hex cs '!'

/-- The function `underscoreOK` of strconv. -/
def underscoreOK (s : List Char) : Bool :=
  let s1 := match s with
    | '-' :: r => r
    | '+' :: r => r
    | r => r
  match s1 with
  | '0' :: c :: r =>
    if c.toLower = 'b' ∨ c.toLower = 'o' ∨ c.toLower = 'x' then
      underscoreLoop (c.toLower = 'x') r '0'
    else underscoreLoop false s1 '^'
  | _ => underscoreLoop false s1 '^'

/-- The digits loop of `readFloat`: returns `sawdot`, `sawdigits`, the mantissa
(every digit kept), the number of digits after the point, and the rest of the input. -/
def readDigits (hex : Bool) : List Char → Bool → Bool → Nat → Nat →
    Bool × Bool × Nat × Nat × List Char
  | [], sawdot, sawdigits, mant, frac => (sawdot, sawdigits, mant, frac, [])
  | c :: cs, sawdot, sawdigits, mant, frac =>
    if c = '_' then readDigits hex cs sawdot sawdigits mant frac
    else if c = '.' then
      if sawdot then (sawdot, sawdigits, mant, frac, c :: cs)
      else readDigits hex cs true sawdigits mant frac
    else if c.isDigit || (hex && isHexLetter c) then
      readDigits hex cs sawdot true
        (mant * (if hex then 16 else 10) + digitValue c) (if sawdot then frac + 1 else frac)
    else (sawdot, sawdigits, mant, frac, c :: cs)

/-- The digits loop of the exponent of `readFloat`, underscores skipped, the
exponent no longer updated once it has reached 10000. -/
def readExp : List Char → Nat → Nat × List Char
  | [], e => (e, [])
  | c :: cs, e =>
    if c = '_' then readExp cs e
    else if c.isDigit then readExp cs (if e < 10000 then e * 10 + (c.toNat - 48) else e)
    else (e, c :: cs)

/-- The value `mant * base ^ (esign * e - frac)` as a ratio, where the base of the
exponent is 10 for a decimal and 2 for a hexadecimal mantissa (whose digits after
the point count four bits each). -/
def scaled (hex : Bool) (mant frac e : Nat) (eneg : Bool) : Nat × Nat :=
  let b := if hex then 2 else 10
  let f := if hex then 4 * frac else frac
  if eneg then (mant, b ^ (e + f))
  else if f ≤ e then (mant * b ^ (e - f), 1)
  else (mant, b ^ (f - e))

/-- The functions `readFloat` and the conversion of `atof64`, on a string that
`special` did not accept. -/
def readFloat (s : List Char) : Option Float64 :=
  let neg := match s with
    | '-' :: _ => true
    | _ => false
  let s1 := match s with
    | '-' :: r => r
    | '+' :: r => r
    | r => r
  let hex := match s1 with
    | '0' :: x :: _ :: _ => x.toLower = 'x'
    | _ => false
  let s2 := if hex then s1.drop 2 else s1
  match readDigits hex s2 false false 0 0 with
  | (_, sawdigits, mant, frac, rest) =>
    if !sawdigits then none
    else
      let expChar := if hex then 'p' else 'e'
      match rest with
      | [] =>
        if hex then none
        else if !underscoreOK s then none
        else
          let v := scaled hex mant frac 0 false
          float64FromRatio neg v.1 v.2
      | c :: r =>
        if c.toLower != expChar then none
        else
          let eneg := match r with
            | '-' :: _ => true
            | _ => false
          let r1 := match r with
            | '-' :: t => t
            | '+' :: t => t
            | t => t
          match r1 with
          | [] => none
          | d :: _ =>
            if !d.isDigit then none
            else
              match readExp r1 0 with
              | (e, []) =>
                if !underscoreOK s then none
                else
                  let v := scaled hex mant frac e eneg
                  float64FromRatio neg v.1 v.2
              | (_, _ :: _) => none

/-- A model of `strconv.ParseFloat(s, 64)`: `some f` when it returns `f` with a nil
error, `none` when it returns an error (`ErrSyntax` or `ErrRange`). -/
def ParseFloat (s : String) : Option Float64 :=
  match special s.data with
  | some f => some f
  | none => readFloat s.data

/-- A model of `strconv.FormatFloat(f, 'f', 2, 64)`. As in `genericFtoa`, the sign
is bit 63, the exponent field the next 11 bits and the mantissa the low 52 bits;
an exponent field of all ones prints `NaN`, `+Inf` or `-Inf`. Otherwise the value
is `m * 2 ^ (e - 1075)`, and `%f` with precision 2 prints the sign (also of a
negative zero), the integer part and the two decimals of the value rounded half
to even to hundredths (`h` is that number of hundredths). -/
def FormatFloat (f : Float64) : String :=
  let neg := f.bits / 2 ^ 63 % 2 = 1
  let exp := f.bits / 2 ^ 52 % 2048
  let mant := f.bits % 2 ^ 52
  if exp = 2047 then
    if mant ≠ 0 then "NaN" else if neg then "-Inf" else "+Inf"
  else
    let m := if exp = 0 then mant else mant + 2 ^ 52
    let e := if exp = 0 then 1 else exp
    let h := roundHalfEven (m * 100 * 2 ^ e) (2 ^ 1075)
    String.mk ((if neg then ['-'] else []) ++ Nat.toDigits 10 (h / 100)
      ++ ['.', Nat.digitChar (h / 10 % 10), Nat.digitChar (h % 10)])

/-! ## cleanFile -/

/-- The message of
`log.Printf("Parsing line %d failed, unexpected type in column %d\n", line, idx)`. -/
def logMsg (line idx : Nat) : String :=
  "Parsing line " ++ toString line ++ " failed, unexpected type in column " ++ toString idx ++ "\n"

/-- The `switch idx` of `cleanFile`: store the float in the field of that column. -/
def setFloat (idx : Nat) (floatValue : Float64) (csvRecord : CSVRecord) : CSVRecord :=
  match idx with
  | 0 => { csvRecord with SepalLength := floatValue }
  | 1 => { csvRecord with SepalWidth := floatValue }
  | 2 => { csvRecord with PetalLength := floatValue }
  | 3 => { csvRecord with PetalWidth := floatValue }
  | _ => csvRecord

/-- The loop `for idx, value := range record` of `cleanFile`, from index `idx` on:
returns the record and the messages logged. A `break` returns, a `continue`
and the end of the body go on with the next value. -/
def parseValues (parseFloat : String → Option Float64) (line : Nat) :
    List String → Nat → CSVRecord → CSVRecord × List String
  | [], _, csvRecord => (csvRecord, [])
  | value :: rest, idx, csvRecord =>
    if idx = 4 then
      if value = "" then
        ({ csvRecord with ParseError := some "Empty string value" }, [logMsg line idx])
      else
        parseValues parseFloat line rest (idx + 1) { csvRecord with Species := value }
    else
      match parseFloat value with
      | none =>
        ({ csvRecord with ParseError := some "Could not parse float" }, [logMsg line idx])
      | some floatValue =>
        parseValues parseFloat line rest (idx + 1) (setFloat idx floatValue csvRecord)

/-- The body of the read loop after the `io.EOF` check, for one record. -/
def processRecord (parseFloat : String → Option Float64) (s : LoopState)
    (record : List String) : LoopState :=
  let out := parseValues parseFloat s.line record 0 CSVRecord.zero
  { csvData := if out.1.ParseError = none then s.csvData ++ [out.1] else s.csvData,
    line := s.line + 1,
    logged := s.logged ++ out.2 }

/-- The read loop of `cleanFile`: `reads` are the results of the successive calls
of `reader.Read()`; a reader that has no more results returns `io.EOF`. -/
def readLoop (parseFloat : String → Option Float64) : List ReadResult → LoopState → LoopState
  | [], s => s
  | r :: rest, s =>
    if r.err = some ReadError.EOF then s
    else readLoop parseFloat rest (processRecord parseFloat s r.record)

/-- The state in which `cleanFile` enters its loop: `csvData` nil, `line := 1`. -/
def LoopState.init : LoopState := { csvData := [], line := 1, logged := [] }

/-- The function `cleanFile` on an opened file: the records returned, the error
returned (always `nil`) and the messages logged. -/
def cleanFile (parseFloat : String → Option Float64) (reads : List ReadResult) :
    List CSVRecord × Option String × List String :=
  let s := readLoop parseFloat reads LoopState.init
  (s.csvData, none, s.logged)

/-! ## main -/

/-- The body of the loop of `main` that converts a record back to a row. -/
def recordOut (formatFloat : Float64 → String) (recordIn : CSVRecord) : List String :=
  [formatFloat recordIn.SepalLength, formatFloat recordIn.SepalWidth,
   formatFloat recordIn.PetalLength, formatFloat recordIn.PetalWidth, recordIn.Species]

/-- The rows `records` that `main` hands to `csv.Writer.WriteAll`. -/
def records (formatFloat : Float64 → String) (csvData : List CSVRecord) : List (List String) :=
  csvData.map (recordOut formatFloat)

/-! ## Auxiliary definitions for the statements -/

/-- The results of `Read` that the loop of `cleanFile` processes: those before
the first `io.EOF`. -/
def rowsRead (reads : List ReadResult) : List ReadResult :=
  reads.takeWhile (fun r => decide (r.err ≠ some ReadError.EOF))

/-- The read loop started at line `line` with no record and no message. -/
def runFrom (parseFloat : String → Option Float64) (line : Nat) (reads : List ReadResult) :
    LoopState :=
  readLoop parseFloat reads { csvData := [], line := line, logged := [] }

/-- The index of the first value of a row, counted from `idx`, that fails its
check: an empty value in column 4, or a value of another column that does not
parse as a float. -/
def failIndex (parseFloat : String → Option Float64) : List String → Nat → Option Nat
  | [], _ => none
  | value :: rest, idx =>
    if idx = 4 then
      if value = "" then some idx else failIndex parseFloat rest (idx + 1)
    else
      match parseFloat value with
      | none => some idx
      | some _ => failIndex parseFloat rest (idx + 1)

/-- The messages that the loop logs for one record read at line `line`. -/
def rowLog (parseFloat : String → Option Float64) (line : Nat) (record : List String) :
    List String :=
  match failIndex parseFloat record 0 with
  | none => []
  | some c => [logMsg line c]

/-- The check of one value of a row fails: the value of column 4 is empty, the
value of another column does not parse as a float. -/
def valueFails (parseFloat : String → Option Float64) (idx : Nat) (value : String) : Bool :=
  if idx = 4 then value == "" else (parseFloat value).isNone

/-- The record that the loop over the values of a row builds, from column `idx`
on, without the log: the outcome of `parseValues` for a row, `none` standing for
a record that got a `ParseError`. It follows the code, not the specification:
every value of a column other than 4 must parse, also in the columns 5 and up,
and a row of fewer than five values passes. -/
def validateFrom (parseFloat : String → Option Float64) :
    List String → Nat → CSVRecord → Option CSVRecord
  | [], _, csvRecord => some csvRecord
  | value :: rest, idx, csvRecord =>
    if idx = 4 then
      if value = "" then none
      else validateFrom parseFloat rest (idx + 1) { csvRecord with Species := value }
    else
      match parseFloat value with
      | none => none
      | some floatValue => validateFrom parseFloat rest (idx + 1) (setFloat idx floatValue csvRecord)

/-- The per-row outcome of the code: the record that a pass of the read loop
appends for the row, `none` when the pass appends nothing. -/
def validateRow (parseFloat : String → Option Float64) (record : List String) :
    Option CSVRecord :=
  validateFrom parseFloat record 0 CSVRecord.zero

/-- The per-row validator in the words of the specification (sections 3 and 4.1):
a row must have exactly five fields, any other shape is a parse failure; the
fields 0-3 must each parse as a 64-bit float and fill the four numeric slots in
order; the field 4 must be non-empty text and is the label. A valid row yields
its record, with an absent error indicator; any other row yields nothing. -/
def specValidateRow (parseFloat : String → Option Float64) (record : List String) :
    Option CSVRecord :=
  match record with
  | [f0, f1, f2, f3, f4] =>
    match parseFloat f0, parseFloat f1, parseFloat f2, parseFloat f3 with
    | some v0, some v1, some v2, some v3 =>
      if f4 = "" then none
      else some { SepalLength := v0, SepalWidth := v1, PetalLength := v2, PetalWidth := v3,
                  Species := f4, ParseError := none }
    | _, _, _, _ => none
  | _ => none

/-- A `float64` that is neither an infinity nor a NaN: its exponent field is not
all ones. -/
def Float64.isFinite (f : Float64) : Prop := f.bits / 2 ^ 52 % 2048 ≠ 2047

instance (f : Float64) : Decidable f.isFinite := by
  unfold Float64.isFinite; infer_instance

/-- Fixed-point notation with exactly two digits after the decimal point: an
optional minus sign, one or more digits, a point, two digits. -/
def isFixed2 (s : String) : Bool :=
  let body := if s.data.head? = some '-' then s.data.tail else s.data
  match body.reverse with
  | d2 :: d1 :: p :: ip =>
    p == '.' && d1.isDigit && d2.isDigit && !ip.isEmpty && ip.all Char.isDigit
  | _ => false

/-! ## Lemmas on the parsing of one row -/

theorem setFloat_ParseError (idx : Nat) (v : Float64) (r : CSVRecord) :
    (setFloat idx v r).ParseError = r.ParseError := by
  unfold setFloat
  split <;> rfl

theorem setFloat_Species (idx : Nat) (v : Float64) (r : CSVRecord) :
    (setFloat idx v r).Species = r.Species := by
  unfold setFloat
  split <;> rfl

theorem validateFrom_isSome (pf : String → Option Float64) (fields : List String) :
    ∀ (idx : Nat) (r : CSVRecord),
      (validateFrom pf fields idx r).isSome = (failIndex pf fields idx).isNone := by
  induction fields with
  | nil => intro idx r; simp [validateFrom, failIndex]
  | cons v rest ih =>
    intro idx r
    simp only [validateFrom, failIndex]
    by_cases h4 : idx = 4
    · by_cases hv : v = ""
      · simp [h4, hv]
      · simp only [h4, hv, if_true, if_false]; exact ih _ _
    · cases hp : pf v with
      | none => simp [h4]
      | some x => simp only [h4, if_false]; exact ih _ _

theorem parseValues_of_valid (pf : String → Option Float64) (line : Nat) (fields : List String) :
    ∀ (idx : Nat) (r out : CSVRecord), r.ParseError = none →
      validateFrom pf fields idx r = some out →
      parseValues pf line fields idx r = (out, []) ∧ out.ParseError = none := by
  induction fields with
  | nil =>
    intro idx r out hr h
    simp only [validateFrom, Option.some.injEq] at h
    subst h
    exact ⟨rfl, hr⟩
  | cons v rest ih =>
    intro idx r out hr h
    simp only [validateFrom] at h
    simp only [parseValues]
    by_cases h4 : idx = 4
    · by_cases hv : v = ""
      · simp [h4, hv] at h
      · simp only [h4, hv, if_true, if_false] at h ⊢
        exact ih _ _ _ hr h
    · cases hp : pf v with
      | none => simp [h4, hp] at h
      | some x =>
        simp only [h4, hp, if_false] at h ⊢
        exact ih _ _ _ (by rw [setFloat_ParseError]; exact hr) h

theorem parseValues_of_fail (pf : String → Option Float64) (line : Nat) (fields : List String) :
    ∀ (idx c : Nat) (r : CSVRecord), failIndex pf fields idx = some c →
      (parseValues pf line fields idx r).1.ParseError ≠ none ∧
      (parseValues pf line fields idx r).2 = [logMsg line c] := by
  induction fields with
  | nil => intro idx c r h; simp [failIndex] at h
  | cons v rest ih =>
    intro idx c r h
    simp only [failIndex] at h
    simp only [parseValues]
    by_cases h4 : idx = 4
    · by_cases hv : v = ""
      · simp only [h4, hv, if_true, Option.some.injEq] at h ⊢
        subst h
        simp
      · simp only [h4, hv, if_true, if_false] at h ⊢
        exact ih _ _ _ h
    · cases hp : pf v with
      | none =>
        simp only [h4, hp, if_false, Option.some.injEq] at h ⊢
        subst h
        simp
      | some x =>
        simp only [h4, hp, if_false] at h ⊢
        exact ih _ _ _ h

theorem failIndex_cons (pf : String → Option Float64) (v : String) (rest : List String)
    (idx : Nat) :
    failIndex pf (v :: rest) idx =
      if valueFails pf idx v = true then some idx else failIndex pf rest (idx + 1) := by
  simp only [failIndex, valueFails]
  by_cases h4 : idx = 4
  · by_cases hv : v = "" <;> simp [h4, hv]
  · simp only [h4, if_false]
    cases pf v <;> simp

theorem failIndex_ge (pf : String → Option Float64) (fields : List String) :
    ∀ idx c : Nat, failIndex pf fields idx = some c → idx ≤ c := by
  induction fields with
  | nil => intro idx c h; simp [failIndex] at h
  | cons v rest ih =>
    intro idx c h
    rw [failIndex_cons] at h
    by_cases hv : valueFails pf idx v = true
    · simp only [hv, if_true, Option.some.injEq] at h
      omega
    · simp only [hv, if_false] at h
      have := ih _ _ h
      omega

theorem failIndex_none_iff (pf : String → Option Float64) (fields : List String) :
    ∀ idx : Nat, failIndex pf fields idx = none ↔
      ∀ (i : Nat) (w : String), fields[i]? = some w → valueFails pf (idx + i) w = false := by
  induction fields with
  | nil => intro idx; simp [failIndex]
  | cons v rest ih =>
    intro idx
    rw [failIndex_cons]
    constructor
    · intro h i w hw
      by_cases hv : valueFails pf idx v = true
      · simp [hv] at h
      · simp only [hv, if_false] at h
        cases i with
        | zero =>
          simp only [List.getElem?_cons_zero, Option.some.injEq] at hw
          subst hw
          simpa using hv
        | succ j =>
          simp only [List.getElem?_cons_succ] at hw
          have := (ih (idx + 1)).1 h j w hw
          rwa [Nat.add_assoc, Nat.add_comm 1 j] at this
    · intro h
      have h0 := h 0 v (by simp)
      simp only [Nat.add_zero] at h0
      simp only [h0, Bool.false_eq_true, if_false]
      refine (ih (idx + 1)).2 (fun i w hw => ?_)
      have := h (i + 1) w (by simpa using hw)
      rwa [Nat.add_assoc, Nat.add_comm 1 i]

theorem failIndex_some_iff (pf : String → Option Float64) (fields : List String) :
    ∀ idx c : Nat, failIndex pf fields idx = some (idx + c) ↔
      (∃ w, fields[c]? = some w ∧ valueFails pf (idx + c) w = true) ∧
      ∀ (i : Nat) (w : String), i < c → fields[i]? = some w →
        valueFails pf (idx + i) w = false := by
  induction fields with
  | nil => intro idx c; simp [failIndex]
  | cons v rest ih =>
    intro idx c
    rw [failIndex_cons]
    cases c with
    | zero =>
      by_cases hv : valueFails pf idx v = true
      · simp [hv]
      · rw [if_neg hv]
        constructor
        · intro h
          have hle := failIndex_ge pf rest (idx + 1) _ h
          omega
        · rintro ⟨⟨w, hw, hf⟩, _⟩
          simp only [List.getElem?_cons_zero, Option.some.injEq] at hw
          subst hw
          exact absurd hf hv
    | succ k =>
      by_cases hv : valueFails pf idx v = true
      · simp only [hv, if_true, Option.some.injEq, List.getElem?_cons_succ]
        constructor
        · intro h; omega
        · rintro ⟨_, h⟩
          have := h 0 v (by omega) (by simp)
          simp [hv] at this
      · rw [if_neg hv]
        simp only [List.getElem?_cons_succ]
        have e : idx + (k + 1) = idx + 1 + k := by omega
        rw [e, ih (idx + 1) k]
        constructor
        · rintro ⟨h1, h2⟩
          refine ⟨h1, fun i w hi hw => ?_⟩
          cases i with
          | zero =>
            simp only [List.getElem?_cons_zero, Option.some.injEq] at hw
            subst hw
            simpa using hv
          | succ j =>
            simp only [List.getElem?_cons_succ] at hw
            have := h2 j w (by omega) hw
            rwa [Nat.add_assoc, Nat.add_comm 1 j] at this
        · rintro ⟨h1, h2⟩
          refine ⟨h1, fun i w hi hw => ?_⟩
          have := h2 (i + 1) w (by omega) (by simpa using hw)
          rwa [Nat.add_assoc, Nat.add_comm 1 i]

/-! ## Lemmas on the read loop -/

theorem processRecord_eq (pf : String → Option Float64) (s : LoopState) (record : List String) :
    processRecord pf s record =
      { csvData := s.csvData ++ (validateRow pf record).toList,
        line := s.line + 1,
        logged := s.logged ++ rowLog pf s.line record } := by
  cases hv : validateRow pf record with
  | some out =>
    have hf : failIndex pf record 0 = none := by
      have h := validateFrom_isSome pf record 0 CSVRecord.zero
      unfold validateRow at hv
      rw [hv] at h
      simpa using h.symm
    obtain ⟨h1, h2⟩ := parseValues_of_valid pf s.line record 0 CSVRecord.zero out rfl hv
    simp [processRecord, rowLog, h1, h2, hf]
  | none =>
    have hf : ∃ c, failIndex pf record 0 = some c := by
      have h := validateFrom_isSome pf record 0 CSVRecord.zero
      unfold validateRow at hv
      rw [hv] at h
      cases hc : failIndex pf record 0 with
      | none => rw [hc] at h; simp at h
      | some c => exact ⟨c, rfl⟩
    obtain ⟨c, hc⟩ := hf
    obtain ⟨h1, h2⟩ := parseValues_of_fail pf s.line record 0 c CSVRecord.zero hc
    simp [processRecord, rowLog, h1, h2, hc]

theorem readLoop_shift (pf : String → Option Float64) (reads : List ReadResult) :
    ∀ s : LoopState, readLoop pf reads s =
      { csvData := s.csvData ++ (runFrom pf s.line reads).csvData,
        line := (runFrom pf s.line reads).line,
        logged := s.logged ++ (runFrom pf s.line reads).logged } := by
  induction reads with
  | nil => intro s; simp [readLoop, runFrom]
  | cons r rest ih =>
    intro s
    by_cases he : r.err = some ReadError.EOF
    · simp [readLoop, runFrom, he]
    · simp only [readLoop, runFrom, he, if_false]
      rw [ih (processRecord pf s r.record), ih (processRecord pf _ r.record)]
      simp [processRecord_eq]

theorem readLoop_append (pf : String → Option Float64) (pre post : List ReadResult)
    (hpre : ∀ x ∈ pre, x.err ≠ some ReadError.EOF) :
    ∀ s : LoopState, readLoop pf (pre ++ post) s = readLoop pf post (readLoop pf pre s) := by
  induction pre with
  | nil => intro s; rfl
  | cons r rest ih =>
    intro s
    have he : r.err ≠ some ReadError.EOF := hpre r (List.mem_cons_self _ _)
    simp only [List.cons_append, readLoop, he, if_false]
    exact ih (fun x hx => hpre x (List.mem_cons_of_mem _ hx)) _

theorem readLoop_line (pf : String → Option Float64) (pre : List ReadResult)
    (hpre : ∀ x ∈ pre, x.err ≠ some ReadError.EOF) :
    ∀ s : LoopState, (readLoop pf pre s).line = s.line + pre.length := by
  induction pre with
  | nil => intro s; rfl
  | cons r rest ih =>
    intro s
    have he : r.err ≠ some ReadError.EOF := hpre r (List.mem_cons_self _ _)
    simp only [readLoop, he, if_false]
    rw [ih (fun x hx => hpre x (List.mem_cons_of_mem _ hx))]
    simp [processRecord_eq]
    omega

/-- The run over `pre ++ r :: post` splits into the run over `pre`, the
contribution of `r`, read at line `pre.length + 1`, and the run over `post`. -/
theorem cleanFile_split (pf : String → Option Float64) (pre post : List ReadResult)
    (r : ReadResult) (hpre : ∀ x ∈ pre, x.err ≠ some ReadError.EOF)
    (hr : r.err ≠ some ReadError.EOF) :
    cleanFile pf (pre ++ r :: post) =
      ((cleanFile pf pre).1 ++ (validateRow pf r.record).toList
          ++ (runFrom pf (pre.length + 2) post).csvData,
        none,
        (cleanFile pf pre).2.2 ++ rowLog pf (pre.length + 1) r.record
          ++ (runFrom pf (pre.length + 2) post).logged) := by
  have hl : (readLoop pf pre LoopState.init).line = pre.length + 1 := by
    rw [readLoop_line pf pre hpre LoopState.init]
    simp [LoopState.init, Nat.add_comm]
  simp only [cleanFile]
  rw [readLoop_append pf pre (r :: post) hpre]
  simp only [readLoop, hr, if_false]
  rw [readLoop_shift pf post]
  simp only [processRecord_eq, hl]

theorem rowsRead_cons (r : ReadResult) (rest : List ReadResult) :
    rowsRead (r :: rest) = if r.err = some ReadError.EOF then [] else r :: rowsRead rest := by
  by_cases he : r.err = some ReadError.EOF <;> simp [rowsRead, List.takeWhile, he]

theorem runFrom_csvData (pf : String → Option Float64) (reads : List ReadResult) :
    ∀ line : Nat, (runFrom pf line reads).csvData =
      (rowsRead reads).filterMap (fun r => validateRow pf r.record) := by
  induction reads with
  | nil => intro line; rfl
  | cons r rest ih =>
    intro line
    rw [rowsRead_cons]
    by_cases he : r.err = some ReadError.EOF
    · simp [runFrom, readLoop, he]
    · simp only [runFrom, readLoop, he, if_false]
      rw [readLoop_shift]
      simp only [processRecord_eq, List.nil_append]
      rw [ih]
      cases hv : validateRow pf r.record <;> simp [List.filterMap_cons, hv]

theorem runFrom_logged (pf : String → Option Float64) (reads : List ReadResult) :
    ∀ line : Nat, (runFrom pf line reads).logged =
      ((rowsRead reads).enumFrom line).filterMap
        (fun p => (failIndex pf p.2.record 0).map (logMsg p.1)) := by
  induction reads with
  | nil => intro line; rfl
  | cons r rest ih =>
    intro line
    rw [rowsRead_cons]
    by_cases he : r.err = some ReadError.EOF
    · simp [runFrom, readLoop, he]
    · simp only [runFrom, readLoop, he, if_false]
      rw [readLoop_shift]
      simp only [processRecord_eq, List.nil_append]
      rw [ih]
      cases hv : failIndex pf r.record 0 <;> simp [List.filterMap_cons, List.enumFrom, rowLog, hv]

theorem cleanFile_eq_runFrom (pf : String → Option Float64) (reads : List ReadResult) :
    cleanFile pf reads = ((runFrom pf 1 reads).csvData, none, (runFrom pf 1 reads).logged) := rfl

theorem validateRow_of_fail (pf : String → Option Float64) (record : List String) (c : Nat)
    (h : failIndex pf record 0 = some c) : validateRow pf record = none := by
  have hs := validateFrom_isSome pf record 0 CSVRecord.zero
  rw [h] at hs
  cases hv : validateRow pf record with
  | none => rfl
  | some out => unfold validateRow at hv; rw [hv] at hs; simp at hs

theorem failIndex_of_valid (pf : String → Option Float64) (record : List String)
    (out : CSVRecord) (h : validateRow pf record = some out) : failIndex pf record 0 = none := by
  have hs := validateFrom_isSome pf record 0 CSVRecord.zero
  unfold validateRow at h
  rw [h] at hs
  simpa using hs.symm

theorem row_dichotomy (pf : String → Option Float64) (line : Nat) (record : List String) :
    (∃ out, validateRow pf record = some out ∧ rowLog pf line record = []) ∨
    (∃ c, validateRow pf record = none ∧ failIndex pf record 0 = some c ∧
      rowLog pf line record = [logMsg line c]) := by
  cases hf : failIndex pf record 0 with
  | none =>
    left
    cases hv : validateRow pf record with
    | none =>
      have hs := validateFrom_isSome pf record 0 CSVRecord.zero
      unfold validateRow at hv
      rw [hv, hf] at hs
      simp at hs
    | some out => exact ⟨out, rfl, by simp [rowLog, hf]⟩
  | some c => exact Or.inr ⟨c, validateRow_of_fail pf record c hf, rfl, by simp [rowLog, hf]⟩

theorem runFrom_count (pf : String → Option Float64) (reads : List ReadResult) :
    ∀ line : Nat, (runFrom pf line reads).csvData.length + (runFrom pf line reads).logged.length
      = (rowsRead reads).length := by
  induction reads with
  | nil => intro line; rfl
  | cons r rest ih =>
    intro line
    rw [rowsRead_cons]
    by_cases he : r.err = some ReadError.EOF
    · simp [runFrom, readLoop, he]
    · simp only [runFrom, readLoop, he, if_false]
      rw [readLoop_shift]
      simp only [processRecord_eq, List.nil_append, List.length_append, List.length_cons]
      have := ih (line + 1)
      rcases row_dichotomy pf line r.record with ⟨out, h1, h2⟩ | ⟨c, h1, _, h2⟩
      · simp only [h1, h2, Option.toList, List.length_cons, List.length_nil]; omega
      · simp only [h1, h2, Option.toList, List.length_cons, List.length_nil]; omega

theorem filterMap_map_some_sublist {α β : Type} (g : α → Option β) (l : List α) :
    ((l.filterMap g).map some).Sublist (l.map g) := by
  induction l with
  | nil => simp
  | cons a rest ih =>
    cases hg : g a with
    | none => simpa [List.filterMap_cons, hg] using ih.cons none
    | some b => simpa [List.filterMap_cons, hg] using ih.cons₂ (some b)

theorem validateRow_eq_none_iff (pf : String → Option Float64) (record : List String) :
    validateRow pf record = none ↔
      ∃ (i : Nat) (w : String), record[i]? = some w ∧ valueFails pf i w = true := by
  have hn := failIndex_none_iff pf record 0
  simp only [Nat.zero_add] at hn
  constructor
  · intro h
    by_contra hex
    have hf : failIndex pf record 0 = none := by
      refine hn.2 (fun i w hw => ?_)
      cases hb : valueFails pf i w with
      | false => rfl
      | true => exact absurd ⟨i, w, hw, hb⟩ hex
    rcases row_dichotomy pf 0 record with ⟨out, h1, _⟩ | ⟨c, _, h2, _⟩
    · rw [h] at h1; cases h1
    · rw [hf] at h2; cases h2
  · rintro ⟨i, w, hw, hb⟩
    cases hf : failIndex pf record 0 with
    | none =>
      have := hn.1 hf i w hw
      rw [hb] at this
      cases this
    | some c => exact validateRow_of_fail pf record c hf

theorem validateFrom_Species_late (pf : String → Option Float64) (fields : List String) :
    ∀ (idx : Nat) (r0 out : CSVRecord), 4 < idx → validateFrom pf fields idx r0 = some out →
      out.Species = r0.Species := by
  induction fields with
  | nil =>
    intro idx r0 out _ h
    simp only [validateFrom, Option.some.injEq] at h
    rw [h]
  | cons v rest ih =>
    intro idx r0 out hidx h
    have h4 : idx ≠ 4 := by omega
    simp only [validateFrom, h4, if_false] at h
    cases hp : pf v with
    | none => simp [hp] at h
    | some x =>
      simp only [hp] at h
      rw [ih (idx + 1) _ out (by omega) h, setFloat_Species]

theorem validateFrom_Species (pf : String → Option Float64) (fields : List String) :
    ∀ (idx : Nat) (r0 out : CSVRecord), idx ≤ 4 → validateFrom pf fields idx r0 = some out →
      (∀ v, fields[4 - idx]? = some v → v ≠ "" ∧ out.Species = v) ∧
      (fields[4 - idx]? = none → out.Species = r0.Species) := by
  induction fields with
  | nil =>
    intro idx r0 out _ h
    simp only [validateFrom, Option.some.injEq] at h
    simp [h]
  | cons v rest ih =>
    intro idx r0 out hidx h
    by_cases h4 : idx = 4
    · subst h4
      by_cases hv : v = ""
      · simp [validateFrom, hv] at h
      · simp only [validateFrom, hv, if_true, if_false] at h
        have hs := validateFrom_Species_late pf rest 5 _ out (by omega) h
        simp only [Nat.sub_self, List.getElem?_cons_zero, Option.some.injEq, reduceCtorEq,
          false_implies, and_true]
        intro w hw
        subst hw
        exact ⟨hv, hs⟩
    · simp only [validateFrom, h4, if_false] at h
      cases hp : pf v with
      | none => simp [hp] at h
      | some x =>
        simp only [hp] at h
        have hlt : idx + 1 ≤ 4 := by omega
        have e : 4 - idx = (4 - (idx + 1)) + 1 := by omega
        have := ih (idx + 1) _ out hlt h
        rw [e, List.getElem?_cons_succ]
        rw [setFloat_Species] at this
        exact this

/-! ## Lemmas on the formatting -/

theorem digitChar_isDigit (n : Nat) (h : n < 10) : (Nat.digitChar n).isDigit = true := by
  interval_cases n <;> decide

theorem toDigitsCore_isDigit (fuel : Nat) :
    ∀ (n : Nat) (ds : List Char), (∀ c ∈ ds, c.isDigit = true) →
      ∀ c ∈ Nat.toDigitsCore 10 fuel n ds, c.isDigit = true := by
  induction fuel with
  | zero => intro n ds h; simpa [Nat.toDigitsCore] using h
  | succ k ih =>
    intro n ds h
    have hd : (Nat.digitChar (n % 10)).isDigit = true := digitChar_isDigit _ (Nat.mod_lt _ (by omega))
    have hall : ∀ c ∈ Nat.digitChar (n % 10) :: ds, c.isDigit = true := by
      intro c hc
      rcases List.mem_cons.1 hc with rfl | hc
      · exact hd
      · exact h c hc
    simp only [Nat.toDigitsCore]
    split
    · exact hall
    · exact ih _ _ hall

theorem toDigitsCore_ne_nil (fuel : Nat) :
    ∀ (n : Nat) (ds : List Char), ds ≠ [] → Nat.toDigitsCore 10 fuel n ds ≠ [] := by
  induction fuel with
  | zero => intro n ds h; simpa [Nat.toDigitsCore] using h
  | succ k ih =>
    intro n ds h
    simp only [Nat.toDigitsCore]
    split
    · simp
    · exact ih _ _ (by simp)

theorem toDigits_isDigit (n : Nat) : ∀ c ∈ Nat.toDigits 10 n, c.isDigit = true :=
  toDigitsCore_isDigit _ _ _ (by simp)

theorem toDigits_ne_nil (n : Nat) : Nat.toDigits 10 n ≠ [] := by
  unfold Nat.toDigits
  simp only [Nat.toDigitsCore]
  split
  · simp
  · exact toDigitsCore_ne_nil _ _ _ (by simp)

theorem isFixed2_of_digits (neg : Prop) [Decidable neg] (ds : List Char) (d1 d2 : Char)
    (hne : ds ≠ []) (hds : ∀ c ∈ ds, c.isDigit = true)
    (h1 : d1.isDigit = true) (h2 : d2.isDigit = true) :
    isFixed2 (String.mk ((if neg then ['-'] else []) ++ ds ++ ['.', d1, d2])) = true := by
  have hbody : (if ((if neg then ['-'] else []) ++ ds ++ ['.', d1, d2]).head? = some '-'
      then ((if neg then ['-'] else []) ++ ds ++ ['.', d1, d2]).tail
      else (if neg then ['-'] else []) ++ ds ++ ['.', d1, d2]) = ds ++ ['.', d1, d2] := by
    by_cases hneg : neg
    · simp [hneg]
    · obtain ⟨c, cs, rfl⟩ := List.exists_cons_of_ne_nil hne
      have hc : c ≠ '-' := by
        intro hc
        have := hds c (List.mem_cons_self _ _)
        rw [hc] at this
        exact absurd this (by decide)
      simp [hneg, hc]
  unfold isFixed2
  simp only [hbody]
  have hrev : (ds ++ ['.', d1, d2]).reverse = d2 :: d1 :: '.' :: ds.reverse := by simp
  rw [hrev]
  simp only [beq_self_eq_true, Bool.true_and, h1, h2, Bool.and_eq_true, Bool.not_eq_true',
    List.isEmpty_eq_false, List.all_eq_true]
  refine ⟨?_, ?_⟩
  · simpa using hne
  · intro c hc
    exact hds c (List.mem_reverse.1 hc)

theorem FormatFloat_fixed2 (f : Float64) (h : f.isFinite) : isFixed2 (FormatFloat f) = true := by
  unfold Float64.isFinite at h
  unfold FormatFloat
  simp only [if_neg h]
  exact isFixed2_of_digits _ _ _ _ (toDigits_ne_nil _) (toDigits_isDigit _)
    (digitChar_isDigit _ (Nat.mod_lt _ (by omega))) (digitChar_isDigit _ (Nat.mod_lt _ (by omega)))

theorem validateFrom_late (pf : String → Option Float64) (fields : List String) :
    ∀ (idx : Nat) (r0 out : CSVRecord), 4 < idx → validateFrom pf fields idx r0 = some out →
      out = r0 := by
  induction fields with
  | nil =>
    intro idx r0 out _ h
    simp only [validateFrom, Option.some.injEq] at h
    exact h.symm
  | cons v rest ih =>
    intro idx r0 out hidx h
    have h4 : idx ≠ 4 := by omega
    simp only [validateFrom, h4, if_false] at h
    cases hp : pf v with
    | none => simp [hp] at h
    | some x =>
      simp only [hp] at h
      have hset : setFloat idx x r0 = r0 := by
        unfold setFloat
        split <;> first | omega | rfl
      rw [hset] at h
      exact ih (idx + 1) r0 out (by omega) h

theorem specValidateRow_of_length_ne (pf : String → Option Float64) (record : List String)
    (h : record.length ≠ 5) : specValidateRow pf record = none := by
  unfold specValidateRow
  split
  · simp at h
  · rfl

theorem validateRow_eq_spec_of_length (pf : String → Option Float64) (record : List String)
    (h : record.length = 5) : validateRow pf record = specValidateRow pf record := by
  rcases record with _ | ⟨f0, _ | ⟨f1, _ | ⟨f2, _ | ⟨f3, _ | ⟨f4, _ | ⟨f5, rest⟩⟩⟩⟩⟩⟩ <;>
    simp at h
  cases h0 : pf f0 <;> cases h1 : pf f1 <;> cases h2 : pf f2 <;> cases h3 : pf f3 <;>
    by_cases h4 : f4 = "" <;>
    simp [validateRow, validateFrom, specValidateRow, setFloat, CSVRecord.zero, h0, h1, h2, h3, h4]

theorem validateRow_of_spec (pf : String → Option Float64) (record : List String)
    (out : CSVRecord) (h : specValidateRow pf record = some out) :
    validateRow pf record = some out := by
  by_cases hlen : record.length = 5
  · rw [validateRow_eq_spec_of_length pf record hlen]; exact h
  · rw [specValidateRow_of_length_ne pf record hlen] at h; cases h

theorem filterMap_sublist_of_le {α β : Type} (g h : α → Option β) (l : List α)
    (hgh : ∀ a b, g a = some b → h a = some b) :
    (l.filterMap g).Sublist (l.filterMap h) := by
  induction l with
  | nil => simp
  | cons a rest ih =>
    cases hg : g a with
    | none =>
      cases hh : h a with
      | none => simpa [List.filterMap_cons, hg, hh] using ih
      | some b => simpa [List.filterMap_cons, hg, hh] using ih.cons b
    | some b =>
      have hh := hgh a b hg
      simpa [List.filterMap_cons, hg, hh] using ih.cons₂ b

theorem validateRow_record (pf : String → Option Float64) (record : List String)
    (out : CSVRecord) (h : validateRow pf record = some out) :
    out = { SepalLength := ((record[0]?).bind pf).getD ⟨0⟩,
            SepalWidth := ((record[1]?).bind pf).getD ⟨0⟩,
            PetalLength := ((record[2]?).bind pf).getD ⟨0⟩,
            PetalWidth := ((record[3]?).bind pf).getD ⟨0⟩,
            Species := (record[4]?).getD "",
            ParseError := none } := by
  unfold validateRow at h
  rcases record with _ | ⟨f0, _ | ⟨f1, _ | ⟨f2, _ | ⟨f3, _ | ⟨f4, rest⟩⟩⟩⟩⟩
  · simp [validateFrom, CSVRecord.zero, Float64.zero] at h ⊢
    exact h.symm
  · cases h0 : pf f0 <;>
      simp [validateFrom, setFloat, CSVRecord.zero, Float64.zero, h0] at h ⊢
    exact h.symm
  · cases h0 : pf f0 <;> cases h1 : pf f1 <;>
      simp [validateFrom, setFloat, CSVRecord.zero, Float64.zero, h0, h1] at h ⊢
    exact h.symm
  · cases h0 : pf f0 <;> cases h1 : pf f1 <;> cases h2 : pf f2 <;>
      simp [validateFrom, setFloat, CSVRecord.zero, Float64.zero, h0, h1, h2] at h ⊢
    exact h.symm
  · cases h0 : pf f0 <;> cases h1 : pf f1 <;> cases h2 : pf f2 <;> cases h3 : pf f3 <;>
      simp [validateFrom, setFloat, CSVRecord.zero, Float64.zero, h0, h1, h2, h3] at h ⊢
    exact h.symm
  · cases h0 : pf f0 <;> cases h1 : pf f1 <;> cases h2 : pf f2 <;> cases h3 : pf f3 <;>
      by_cases h4 : f4 = "" <;>
      simp [validateFrom, setFloat, CSVRecord.zero, Float64.zero, h0, h1, h2, h3, h4] at h ⊢
    exact validateFrom_late pf rest 5 _ out (by omega) h

/-! ## The claims -/

set_option exponentiation.threshold 3000
set_option maxRecDepth 100000

/-- C1: a row of exactly five fields whose fields 0-3 parse as floats `v0 .. v3`
and whose field 4 is non-empty contributes, at its place in the result, the
record holding `v0 .. v3`, field 4 verbatim and a nil `ParseError`, and
contributes nothing to the log: the result of `cleanFile` is the records of the
rows before it, this record, then the records of the rows after it, and the log
is the log of the rows before it followed by the log of the rows after it. -/
theorem C1_wellformed_row_kept (pf : String → Option Float64) (pre post : List ReadResult)
    (r : ReadResult) (f0 f1 f2 f3 f4 : String) (v0 v1 v2 v3 : Float64)
    (hpre : ∀ x ∈ pre, x.err ≠ some ReadError.EOF) (hr : r.err ≠ some ReadError.EOF)
    (hrec : r.record = [f0, f1, f2, f3, f4])
    (h0 : pf f0 = some v0) (h1 : pf f1 = some v1) (h2 : pf f2 = some v2)
    (h3 : pf f3 = some v3) (h4 : f4 ≠ "") :
    cleanFile pf (pre ++ r :: post) =
      ((cleanFile pf pre).1
          ++ [{ SepalLength := v0, SepalWidth := v1, PetalLength := v2, PetalWidth := v3,
                Species := f4, ParseError := none }]
          ++ (runFrom pf (pre.length + 2) post).csvData,
        none,
        (cleanFile pf pre).2.2 ++ (runFrom pf (pre.length + 2) post).logged) := by
  have hv : validateRow pf r.record =
      some { SepalLength := v0, SepalWidth := v1, PetalLength := v2, PetalWidth := v3,
             Species := f4, ParseError := none } := by
    simp [hrec, validateRow, validateFrom, h0, h1, h2, h3, h4, setFloat, CSVRecord.zero]
  have hl : rowLog pf (pre.length + 1) r.record = [] := by
    simp [rowLog, failIndex_of_valid pf r.record _ hv]
  rw [cleanFile_split pf pre post r hpre hr, hv, hl]
  simp

/-- Witness of C1: after one kept row, the row `5.1,3.5,1.4,0.2,setosa` adds its
record and no message. -/
theorem C1_wellformed_row_kept_witness :
    cleanFile ParseFloat
        ([row ["4.9", "3.0", "1.4", "0.2", "setosa"]]
          ++ row ["5.1", "3.5", "1.4", "0.2", "setosa"] :: []) =
      ((cleanFile ParseFloat [row ["4.9", "3.0", "1.4", "0.2", "setosa"]]).1
          ++ [{ SepalLength := ⟨0x4014666666666666⟩, SepalWidth := ⟨0x400C000000000000⟩,
                PetalLength := ⟨0x3FF6666666666666⟩, PetalWidth := ⟨0x3FC999999999999A⟩,
                Species := "setosa", ParseError := none }]
          ++ (runFrom ParseFloat (1 + 2) []).csvData,
        none,
        (cleanFile ParseFloat [row ["4.9", "3.0", "1.4", "0.2", "setosa"]]).2.2
          ++ (runFrom ParseFloat (1 + 2) []).logged) :=
  C1_wellformed_row_kept ParseFloat [row ["4.9", "3.0", "1.4", "0.2", "setosa"]] []
    (row ["5.1", "3.5", "1.4", "0.2", "setosa"]) "5.1" "3.5" "1.4" "0.2" "setosa"
    ⟨0x4014666666666666⟩ ⟨0x400C000000000000⟩ ⟨0x3FF6666666666666⟩ ⟨0x3FC999999999999A⟩
    (by decide) (by decide) rfl (by decide) (by decide) (by decide) (by decide) (by decide)

/-- C2: a row with a value in one of the columns 0-3 that does not parse as a
float, `c` being the smallest index at which parsing fails, contributes no record
and exactly one message, which cites the line number of the row (one more than
the number of rows read before it) and the column `c`. -/
theorem C2_bad_number_dropped (pf : String → Option Float64) (pre post : List ReadResult)
    (r : ReadResult) (c : Nat) (v : String)
    (hpre : ∀ x ∈ pre, x.err ≠ some ReadError.EOF) (hr : r.err ≠ some ReadError.EOF)
    (hc : c < 4) (hv : r.record[c]? = some v) (hfail : pf v = none)
    (hmin : ∀ (i : Nat) (w : String), i < c → r.record[i]? = some w → pf w ≠ none) :
    cleanFile pf (pre ++ r :: post) =
      ((cleanFile pf pre).1 ++ (runFrom pf (pre.length + 2) post).csvData,
        none,
        (cleanFile pf pre).2.2 ++ [logMsg (pre.length + 1) c]
          ++ (runFrom pf (pre.length + 2) post).logged) := by
  have hf : failIndex pf r.record 0 = some c := by
    have h := (failIndex_some_iff pf r.record 0 c).2
    rw [Nat.zero_add] at h
    refine h ⟨⟨v, hv, ?_⟩, fun i w hi hw => ?_⟩
    · have : c ≠ 4 := by omega
      simp [valueFails, this, hfail]
    · have h4 : i ≠ 4 := by omega
      have := hmin i w hi hw
      cases hp : pf w with
      | none => exact absurd hp this
      | some x => simp [valueFails, h4, hp]
  rw [cleanFile_split pf pre post r hpre hr, validateRow_of_fail pf r.record c hf]
  simp [rowLog, hf]

/-- Witness of C2: the row `5.1,hello,1.4,0.2,setosa`, read second, is dropped
with one message citing line 2 and column 1. -/
theorem C2_bad_number_dropped_witness :
    cleanFile ParseFloat
        ([row ["4.9", "3.0", "1.4", "0.2", "setosa"]]
          ++ row ["5.1", "hello", "1.4", "0.2", "setosa"] :: []) =
      ((cleanFile ParseFloat [row ["4.9", "3.0", "1.4", "0.2", "setosa"]]).1
          ++ (runFrom ParseFloat (1 + 2) []).csvData,
        none,
        (cleanFile ParseFloat [row ["4.9", "3.0", "1.4", "0.2", "setosa"]]).2.2
          ++ [logMsg (1 + 1) 1] ++ (runFrom ParseFloat (1 + 2) []).logged) :=
  C2_bad_number_dropped ParseFloat [row ["4.9", "3.0", "1.4", "0.2", "setosa"]] []
    (row ["5.1", "hello", "1.4", "0.2", "setosa"]) 1 "hello"
    (by decide) (by decide) (by decide) rfl (by decide)
    (by
      intro i w hi hw
      have hi0 : i = 0 := by omega
      subst hi0
      simp only [row, List.getElem?_cons_zero, Option.some.injEq] at hw
      subst hw
      decide)

/-- C3, counterexample: the row `x,3.5,1.4,0.2,` has an empty value in column 4,
and the one message logged for it cites column 0, not column 4: the loop stops at
the first value that fails. -/
theorem C3_counterexample :
    cleanFile ParseFloat [row ["x", "3.5", "1.4", "0.2", ""]] = ([], none, [logMsg 1 0]) ∧
      logMsg 1 0 = "Parsing line 1 failed, unexpected type in column 0\n" ∧
      logMsg 1 0 ≠ logMsg 1 4 := by
  decide

/-- C3, amended: a row whose value in column 4 is the empty string contributes no
record and exactly one message, citing the line of the row and the column `c` of
the first value that fails: `c` is 4 exactly when the values of the columns 0-3
all parse as floats (as in `5.1,3.5,1.4,0.2,`), and otherwise `c` is the smallest
column in 0-3 at which parsing fails (as in `x,3.5,1.4,0.2,`, column 0). -/
theorem C3_empty_label_dropped (pf : String → Option Float64) (pre post : List ReadResult)
    (r : ReadResult)
    (hpre : ∀ x ∈ pre, x.err ≠ some ReadError.EOF) (hr : r.err ≠ some ReadError.EOF)
    (h4 : r.record[4]? = some "") :
    ∃ c : Nat,
      cleanFile pf (pre ++ r :: post) =
        ((cleanFile pf pre).1 ++ (runFrom pf (pre.length + 2) post).csvData,
          none,
          (cleanFile pf pre).2.2 ++ [logMsg (pre.length + 1) c]
            ++ (runFrom pf (pre.length + 2) post).logged) ∧
      ((c = 4 ∧ ∀ (i : Nat) (w : String), i < 4 → r.record[i]? = some w → pf w ≠ none) ∨
       (c < 4 ∧ (∃ w, r.record[c]? = some w ∧ pf w = none) ∧
          ∀ (i : Nat) (w : String), i < c → r.record[i]? = some w → pf w ≠ none)) ∧
      (c = 4 ↔ ∀ (i : Nat) (w : String), i < 4 → r.record[i]? = some w → pf w ≠ none) := by
  have hne : failIndex pf r.record 0 ≠ none := by
    intro hn
    have := (failIndex_none_iff pf r.record 0).1 hn 4 "" h4
    simp [valueFails] at this
  obtain ⟨c, hc⟩ : ∃ c, failIndex pf r.record 0 = some c := by
    cases h : failIndex pf r.record 0 with
    | none => exact absurd h hne
    | some c => exact ⟨c, rfl⟩
  have hspec := (failIndex_some_iff pf r.record 0 c).1 (by rw [Nat.zero_add]; exact hc)
  simp only [Nat.zero_add] at hspec
  obtain ⟨⟨w, hw, hwf⟩, hmin⟩ := hspec
  have hle : c ≤ 4 := by
    by_contra hgt
    have := hmin 4 "" (by omega) h4
    simp [valueFails] at this
  have hbefore : ∀ (i : Nat) (x : String), i < c → r.record[i]? = some x → pf x ≠ none := by
    intro i x hi hx hp
    have hi4 : i ≠ 4 := by omega
    have := hmin i x hi hx
    simp only [valueFails, hi4, if_false] at this
    rw [hp] at this
    simp at this
  have hfailc : c < 4 → pf w = none := by
    intro hlt
    have hcne : c ≠ 4 := by omega
    simpa only [valueFails, hcne, if_false, Option.isNone_iff_eq_none] using hwf
  refine ⟨c, ?_, ?_, ?_⟩
  · rw [cleanFile_split pf pre post r hpre hr, validateRow_of_fail pf r.record c hc]
    simp [rowLog, hc]
  · by_cases hc4 : c = 4
    · left
      refine ⟨hc4, fun i x hi hx => hbefore i x (by omega) hx⟩
    · right
      have hlt : c < 4 := by omega
      exact ⟨hlt, ⟨w, hw, hfailc hlt⟩, hbefore⟩
  · constructor
    · intro hc4 i x hi hx
      exact hbefore i x (by omega) hx
    · intro hall
      by_contra hc4
      have hlt : c < 4 := by omega
      exact hall c w hlt hw (hfailc hlt)

/-- Witness of C3: the row `5.1,3.5,1.4,0.2,` read first. -/
theorem C3_empty_label_dropped_witness :
    ∃ c : Nat,
      cleanFile ParseFloat ([] ++ row ["5.1", "3.5", "1.4", "0.2", ""] :: []) =
        ((cleanFile ParseFloat []).1 ++ (runFrom ParseFloat (0 + 2) []).csvData,
          none,
          (cleanFile ParseFloat []).2.2 ++ [logMsg (0 + 1) c]
            ++ (runFrom ParseFloat (0 + 2) []).logged) ∧
      ((c = 4 ∧ ∀ (i : Nat) (w : String), i < 4 →
          (row ["5.1", "3.5", "1.4", "0.2", ""]).record[i]? = some w → ParseFloat w ≠ none) ∨
       (c < 4 ∧ (∃ w, (row ["5.1", "3.5", "1.4", "0.2", ""]).record[c]? = some w ∧
            ParseFloat w = none) ∧
          ∀ (i : Nat) (w : String), i < c →
            (row ["5.1", "3.5", "1.4", "0.2", ""]).record[i]? = some w → ParseFloat w ≠ none)) ∧
      (c = 4 ↔ ∀ (i : Nat) (w : String), i < 4 →
          (row ["5.1", "3.5", "1.4", "0.2", ""]).record[i]? = some w → ParseFloat w ≠ none) :=
  C3_empty_label_dropped ParseFloat [] [] (row ["5.1", "3.5", "1.4", "0.2", ""])
    (by decide) (by decide) rfl

/-- C4: each row read either adds exactly one record to the result and no
message to the log, or adds no record and exactly one message; so the number of
records returned plus the number of messages logged is the number of rows read,
and the number of records is the number of rows read minus the number of messages. -/
theorem C4_one_record_or_one_diagnostic (pf : String → Option Float64)
    (reads : List ReadResult) :
    (∀ (s : LoopState) (record : List String),
      (∃ out, (processRecord pf s record).csvData = s.csvData ++ [out] ∧
        (processRecord pf s record).logged = s.logged) ∨
      (∃ msg, (processRecord pf s record).csvData = s.csvData ∧
        (processRecord pf s record).logged = s.logged ++ [msg])) ∧
    (cleanFile pf reads).1.length + (cleanFile pf reads).2.2.length = (rowsRead reads).length ∧
    (cleanFile pf reads).1.length = (rowsRead reads).length - (cleanFile pf reads).2.2.length := by
  have hcount := runFrom_count pf reads 1
  refine ⟨fun s record => ?_, ?_, ?_⟩
  · rw [processRecord_eq]
    rcases row_dichotomy pf s.line record with ⟨out, h1, h2⟩ | ⟨c, h1, _, h2⟩
    · exact Or.inl ⟨out, by simp [h1], by simp [h2]⟩
    · exact Or.inr ⟨logMsg s.line c, by simp [h1], by simp [h2]⟩
  · rw [cleanFile_eq_runFrom]; exact hcount
  · rw [cleanFile_eq_runFrom]; simp only; omega

/-- C5, counterexample: the two-field row `5.1,3.5` does not pass the per-row
validation of the specification (it has not five fields), yet `cleanFile` returns
a record for it: the result is not `filterMap` of the validator over the rows. -/
theorem C5_counterexample :
    (cleanFile ParseFloat [row ["5.1", "3.5"]]).1 =
        [{ SepalLength := ⟨0x4014666666666666⟩, SepalWidth := ⟨0x400C000000000000⟩,
           PetalLength := ⟨0⟩, PetalWidth := ⟨0⟩, Species := "", ParseError := none }] ∧
      (rowsRead [row ["5.1", "3.5"]]).filterMap (fun r => specValidateRow ParseFloat r.record)
        = [] := by
  decide

/-- C5, amended: when every row read has exactly five fields, the sequence
returned by `cleanFile` is the rows filtered to those that pass the per-row
validation of the specification, each mapped to its record, in the order of the
input. For every input, the records of the rows that pass that validation are a
subsequence of the result; the result is `filterMap` of the per-row outcome of
the code over the rows read, so the records keep the relative order of their rows
and no row contributes more than one record. -/
theorem C5_result_is_filterMap (pf : String → Option Float64) (reads : List ReadResult) :
    ((∀ r ∈ rowsRead reads, r.record.length = 5) →
      (cleanFile pf reads).1 =
        (rowsRead reads).filterMap (fun r => specValidateRow pf r.record)) ∧
    ((rowsRead reads).filterMap (fun r => specValidateRow pf r.record)).Sublist
      (cleanFile pf reads).1 ∧
    (cleanFile pf reads).1 = (rowsRead reads).filterMap (fun r => validateRow pf r.record) ∧
    ((cleanFile pf reads).1.map some).Sublist
      ((rowsRead reads).map (fun r => validateRow pf r.record)) ∧
    (cleanFile pf reads).1.length ≤ (rowsRead reads).length := by
  have h : (cleanFile pf reads).1 =
      (rowsRead reads).filterMap (fun r => validateRow pf r.record) := by
    rw [cleanFile_eq_runFrom]; exact runFrom_csvData pf reads 1
  refine ⟨fun hall => ?_, ?_, h, ?_, ?_⟩
  · rw [h]
    exact List.filterMap_congr
      (fun r hr => validateRow_eq_spec_of_length pf r.record (hall r hr))
  · rw [h]
    exact filterMap_sublist_of_le _ _ _ (fun r out hs => validateRow_of_spec pf r.record out hs)
  · rw [h]; exact filterMap_map_some_sublist _ _
  · rw [h]; exact List.length_filterMap_le _ _

/-- Witness of C5: an input of three five-field rows, the second malformed. -/
theorem C5_result_is_filterMap_witness :
    (cleanFile ParseFloat
        [row ["4.9", "3.0", "1.4", "0.2", "setosa"], row ["5.1", "hello", "1.4", "0.2", "setosa"],
          row ["5.1", "3.5", "1.4", "0.2", "setosa"]]).1 =
      (rowsRead
        [row ["4.9", "3.0", "1.4", "0.2", "setosa"], row ["5.1", "hello", "1.4", "0.2", "setosa"],
          row ["5.1", "3.5", "1.4", "0.2", "setosa"]]).filterMap
        (fun r => specValidateRow ParseFloat r.record) :=
  (C5_result_is_filterMap ParseFloat
    [row ["4.9", "3.0", "1.4", "0.2", "setosa"], row ["5.1", "hello", "1.4", "0.2", "setosa"],
      row ["5.1", "3.5", "1.4", "0.2", "setosa"]]).1 (by decide)

/-- C6, counterexample: the row `5.1,3.5,1.4` has three fields and is kept: the
result holds a record for it, with `PetalWidth` zero and `Species` empty, and
nothing is logged. -/
theorem C6_counterexample :
    cleanFile ParseFloat [row ["5.1", "3.5", "1.4"]] =
      ([{ SepalLength := ⟨0x4014666666666666⟩, SepalWidth := ⟨0x400C000000000000⟩,
          PetalLength := ⟨0x3FF6666666666666⟩, PetalWidth := ⟨0⟩,
          Species := "", ParseError := none }], none, []) := by
  decide

/-- C6, amended: a row whose number of fields is not five is absent from the
result exactly when one of its values fails its check (an empty value in column
4, or a value in another column that does not parse as a float); when no value
fails, the row is kept: the record added at its place holds the parsed values of
the fields 0-3 and the field 4 as far as the row has them, the zero value
(`0`, the empty string) in the slots of the fields that the row does not have,
and a nil `ParseError`; nothing is logged for it. -/
theorem C6_other_field_count (pf : String → Option Float64) (pre post : List ReadResult)
    (r : ReadResult)
    (hpre : ∀ x ∈ pre, x.err ≠ some ReadError.EOF) (hr : r.err ≠ some ReadError.EOF)
    (_hlen : r.record.length ≠ 5) :
    ((cleanFile pf (pre ++ r :: post)).1 =
        (cleanFile pf pre).1 ++ (runFrom pf (pre.length + 2) post).csvData ↔
      ∃ (i : Nat) (w : String), r.record[i]? = some w ∧
        ((i = 4 ∧ w = "") ∨ (i ≠ 4 ∧ pf w = none))) ∧
    ((¬ ∃ (i : Nat) (w : String), r.record[i]? = some w ∧
        ((i = 4 ∧ w = "") ∨ (i ≠ 4 ∧ pf w = none))) →
      cleanFile pf (pre ++ r :: post) =
        ((cleanFile pf pre).1
          ++ [{ SepalLength := ((r.record[0]?).bind pf).getD ⟨0⟩,
                SepalWidth := ((r.record[1]?).bind pf).getD ⟨0⟩,
                PetalLength := ((r.record[2]?).bind pf).getD ⟨0⟩,
                PetalWidth := ((r.record[3]?).bind pf).getD ⟨0⟩,
                Species := (r.record[4]?).getD "",
                ParseError := none }]
          ++ (runFrom pf (pre.length + 2) post).csvData,
          none,
          (cleanFile pf pre).2.2 ++ (runFrom pf (pre.length + 2) post).logged)) := by
  have hiff : (∃ (i : Nat) (w : String), r.record[i]? = some w ∧
      ((i = 4 ∧ w = "") ∨ (i ≠ 4 ∧ pf w = none))) ↔ validateRow pf r.record = none := by
    rw [validateRow_eq_none_iff]
    constructor
    · rintro ⟨i, w, hw, h⟩
      refine ⟨i, w, hw, ?_⟩
      rcases h with ⟨h1, h2⟩ | ⟨h1, h2⟩
      · simp [valueFails, h1, h2]
      · simp [valueFails, h1, h2]
    · rintro ⟨i, w, hw, h⟩
      refine ⟨i, w, hw, ?_⟩
      by_cases h4 : i = 4
      · left; simpa [valueFails, h4] using h
      · right; exact ⟨h4, by simpa [valueFails, h4] using h⟩
  have hsplit := cleanFile_split pf pre post r hpre hr
  rw [hiff]
  constructor
  · rw [hsplit]
    constructor
    · intro h
      cases hv : validateRow pf r.record with
      | none => rfl
      | some out =>
        rw [hv] at h
        have := congrArg List.length h
        simp at this
    · intro hv
      simp [hv]
  · intro hv
    cases hv2 : validateRow pf r.record with
    | none => exact absurd hv2 hv
    | some out =>
      have hout := validateRow_record pf r.record out hv2
      rw [hsplit, hv2, ← hout]
      simp [rowLog, failIndex_of_valid pf r.record out hv2]

/-- Witness of C6: the two-field row `4.7,3.2`, read after one kept row, is kept:
its record has the two parsed values, zero in the other numeric fields and an
empty `Species`. -/
theorem C6_other_field_count_witness :
    cleanFile ParseFloat ([row ["4.9", "3.0", "1.4", "0.2", "setosa"]] ++ row ["4.7", "3.2"] :: [])
      = ((cleanFile ParseFloat [row ["4.9", "3.0", "1.4", "0.2", "setosa"]]).1
          ++ [{ SepalLength := (((row ["4.7", "3.2"]).record[0]?).bind ParseFloat).getD ⟨0⟩,
                SepalWidth := (((row ["4.7", "3.2"]).record[1]?).bind ParseFloat).getD ⟨0⟩,
                PetalLength := (((row ["4.7", "3.2"]).record[2]?).bind ParseFloat).getD ⟨0⟩,
                PetalWidth := (((row ["4.7", "3.2"]).record[3]?).bind ParseFloat).getD ⟨0⟩,
                Species := ((row ["4.7", "3.2"]).record[4]?).getD "",
                ParseError := none }]
          ++ (runFrom ParseFloat (1 + 2) []).csvData,
          none,
          (cleanFile ParseFloat [row ["4.9", "3.0", "1.4", "0.2", "setosa"]]).2.2
            ++ (runFrom ParseFloat (1 + 2) []).logged) :=
  (C6_other_field_count ParseFloat [row ["4.9", "3.0", "1.4", "0.2", "setosa"]] []
    (row ["4.7", "3.2"]) (by decide) (by decide) (by decide)).2
    (by
      rintro ⟨i, w, hw, h⟩
      have key := (failIndex_none_iff ParseFloat (row ["4.7", "3.2"]).record 0).1
        (by decide) i w hw
      rcases h with ⟨h1, h2⟩ | ⟨h1, h2⟩
      · simp [valueFails, h1, h2] at key
      · simp [valueFails, h1, h2] at key)

/-- C7, counterexample: the four-field row `5.1,3.5,1.4,0.2` is kept and its
record has an empty `Species`. -/
theorem C7_counterexample :
    (cleanFile ParseFloat [row ["5.1", "3.5", "1.4", "0.2"]]).1.map CSVRecord.Species = [""] := by
  decide

/-- C7, amended: every record returned by `cleanFile` is the record of a row
read; when that row has a value in column 4, the `Species` of the record is that
value and it is non-empty; when the row has fewer than five fields, the
`Species` of the record is the empty string. -/
theorem C7_species_of_kept_record (pf : String → Option Float64) (reads : List ReadResult)
    (out : CSVRecord) (hmem : out ∈ (cleanFile pf reads).1) :
    ∃ r ∈ rowsRead reads, validateRow pf r.record = some out ∧
      (∀ v, r.record[4]? = some v → v ≠ "" ∧ out.Species = v) ∧
      (r.record.length < 5 → out.Species = "") := by
  rw [cleanFile_eq_runFrom] at hmem
  simp only [runFrom_csvData, List.mem_filterMap] at hmem
  obtain ⟨r, hr, hv⟩ := hmem
  have hs := validateFrom_Species pf r.record 0 CSVRecord.zero out (by omega) hv
  refine ⟨r, hr, hv, hs.1, fun hlen => ?_⟩
  have hnone : r.record[4 - 0]? = none := by
    rw [List.getElem?_eq_none_iff]; omega
  exact hs.2 hnone

/-- Witness of C7: the only record returned for `5.1,3.5,1.4,0.2,setosa`. -/
theorem C7_species_of_kept_record_witness :
    ∃ r ∈ rowsRead [row ["5.1", "3.5", "1.4", "0.2", "setosa"]],
      validateRow ParseFloat r.record =
        some { SepalLength := ⟨0x4014666666666666⟩, SepalWidth := ⟨0x400C000000000000⟩,
               PetalLength := ⟨0x3FF6666666666666⟩, PetalWidth := ⟨0x3FC999999999999A⟩,
               Species := "setosa", ParseError := none } ∧
      (∀ v, r.record[4]? = some v → v ≠ "" ∧ "setosa" = v) ∧
      (r.record.length < 5 → "setosa" = "") :=
  C7_species_of_kept_record ParseFloat [row ["5.1", "3.5", "1.4", "0.2", "setosa"]]
    { SepalLength := ⟨0x4014666666666666⟩, SepalWidth := ⟨0x400C000000000000⟩,
      PetalLength := ⟨0x3FF6666666666666⟩, PetalWidth := ⟨0x3FC999999999999A⟩,
      Species := "setosa", ParseError := none }
    (by decide)

/-- C8, counterexample: `ParseFloat` accepts `NaN`, so the row
`NaN,3.5,1.4,0.2,setosa` is kept, and the conversion of `main` renders its first
field as `NaN`, which is not fixed-point notation with two decimals. -/
theorem C8_counterexample :
    records FormatFloat (cleanFile ParseFloat [row ["NaN", "3.5", "1.4", "0.2", "setosa"]]).1 =
        [["NaN", "3.50", "1.40", "0.20", "setosa"]] ∧
      isFixed2 "NaN" = false := by
  decide

/-- C8, amended: for every record whose four numeric fields are finite (neither
an infinity nor a NaN), the conversion of `main` renders each of the four numeric
fields in fixed-point notation with exactly two digits after the decimal point;
the record parsed from `5.1,3.5,1.4,0.2,setosa` is rendered as
`5.10,3.50,1.40,0.20,setosa`. -/
theorem C8_finite_fields_two_decimals (recordIn : CSVRecord)
    (h0 : recordIn.SepalLength.isFinite) (h1 : recordIn.SepalWidth.isFinite)
    (h2 : recordIn.PetalLength.isFinite) (h3 : recordIn.PetalWidth.isFinite) :
    (∀ s ∈ (recordOut FormatFloat recordIn).take 4, isFixed2 s = true) ∧
    records FormatFloat (cleanFile ParseFloat [row ["5.1", "3.5", "1.4", "0.2", "setosa"]]).1 =
      [["5.10", "3.50", "1.40", "0.20", "setosa"]] := by
  refine ⟨?_, by decide⟩
  intro s hs
  simp only [recordOut, List.take, List.mem_cons, List.mem_nil_iff, or_false] at hs
  rcases hs with rfl | rfl | rfl | rfl
  · exact FormatFloat_fixed2 _ h0
  · exact FormatFloat_fixed2 _ h1
  · exact FormatFloat_fixed2 _ h2
  · exact FormatFloat_fixed2 _ h3

/-- Witness of C8: the record with the fields 5.1, 3.5, 1.4 and 0.2. -/
theorem C8_finite_fields_two_decimals_witness :
    (∀ s ∈ (recordOut FormatFloat
        { SepalLength := ⟨0x4014666666666666⟩, SepalWidth := ⟨0x400C000000000000⟩,
          PetalLength := ⟨0x3FF6666666666666⟩, PetalWidth := ⟨0x3FC999999999999A⟩,
          Species := "setosa", ParseError := none }).take 4, isFixed2 s = true) ∧
    records FormatFloat (cleanFile ParseFloat [row ["5.1", "3.5", "1.4", "0.2", "setosa"]]).1 =
      [["5.10", "3.50", "1.40", "0.20", "setosa"]] :=
  C8_finite_fields_two_decimals
    { SepalLength := ⟨0x4014666666666666⟩, SepalWidth := ⟨0x400C000000000000⟩,
      PetalLength := ⟨0x3FF6666666666666⟩, PetalWidth := ⟨0x3FC999999999999A⟩,
      Species := "setosa", ParseError := none }
    (by decide) (by decide) (by decide) (by decide)

/-- C9: the conversion of `main` produces exactly one row per record, in the
same order (the i-th row is the conversion of the i-th record); every row has
exactly five fields and its fifth field is the `Species` of the record, unchanged. -/
theorem C9_one_row_per_record (formatFloat : Float64 → String) (csvData : List CSVRecord) :
    (records formatFloat csvData).length = csvData.length ∧
    (∀ i : Nat, (records formatFloat csvData)[i]? = (csvData[i]?).map (recordOut formatFloat)) ∧
    (∀ recordIn : CSVRecord, (recordOut formatFloat recordIn).length = 5 ∧
      (recordOut formatFloat recordIn)[4]? = some recordIn.Species) := by
  refine ⟨by simp [records], fun i => by simp [records], fun recordIn => ?_⟩
  simp [recordOut]

/-- C10, counterexample: the message logged for the dropped row
`5.1,hello,1.4,0.2,setosa` is `Parsing line 1 failed, unexpected type in column 1`
followed by a newline, not `line 1: unexpected value in column 1`. -/
theorem C10_counterexample :
    (cleanFile ParseFloat [row ["5.1", "hello", "1.4", "0.2", "setosa"]]).2.2 =
        ["Parsing line 1 failed, unexpected type in column 1\n"] ∧
      (cleanFile ParseFloat [row ["5.1", "hello", "1.4", "0.2", "setosa"]]).2.2 ≠
        ["line 1: unexpected value in column 1"] ∧
      (cleanFile ParseFloat [row ["5.1", "hello", "1.4", "0.2", "setosa"]]).2.2 ≠
        ["line 1: unexpected value in column 1\n"] := by
  decide

/-- C10, amended: the log of `cleanFile` is exactly, in the order of the input,
one message per dropped row, of the form
`Parsing line <n> failed, unexpected type in column <c>` followed by a newline,
where `n` is the line number of the row (counted from 1 over the rows read) and
`c` the column of the first value of the row that fails; nothing else is logged. -/
theorem C10_log_format (pf : String → Option Float64) (reads : List ReadResult) :
    (cleanFile pf reads).2.2 =
      ((rowsRead reads).enumFrom 1).filterMap
        (fun p => (failIndex pf p.2.record 0).map
          (fun c => "Parsing line " ++ toString p.1 ++ " failed, unexpected type in column "
            ++ toString c ++ "\n")) := by
  rw [cleanFile_eq_runFrom]
  exact runFrom_logged pf reads 1

/-! ## Further lemmas -/

theorem mem_cleanFile_iff (pf : String → Option Float64) (reads : List ReadResult)
    (out : CSVRecord) :
    out ∈ (cleanFile pf reads).1 ↔ ∃ r ∈ rowsRead reads, validateRow pf r.record = some out := by
  rw [cleanFile_eq_runFrom]
  simp only [runFrom_csvData, List.mem_filterMap]

theorem validateRow_ParseError (pf : String → Option Float64) (record : List String)
    (out : CSVRecord) (h : validateRow pf record = some out) : out.ParseError = none :=
  (parseValues_of_valid pf 0 record 0 CSVRecord.zero out rfl h).2

theorem parseValues_dropped_iff (pf : String → Option Float64) (line : Nat)
    (record : List String) :
    (parseValues pf line record 0 CSVRecord.zero).1.ParseError ≠ none ↔
      validateRow pf record = none := by
  rcases row_dichotomy pf line record with ⟨out, h1, _⟩ | ⟨c, h1, h2, _⟩
  · obtain ⟨hp, he⟩ := parseValues_of_valid pf line record 0 CSVRecord.zero out rfl h1
    rw [hp, h1]
    simp [he]
  · have := (parseValues_of_fail pf line record 0 c CSVRecord.zero h2).1
    simp [h1, this]

/-! ## The claims, continued -/

/-- C11: for every sequence of rows, `cleanFile` returns a nil error; in
particular when every row read is malformed the error is still nil, the result is
empty and there is one message per row read. -/
theorem C11_error_always_nil (pf : String → Option Float64) (reads : List ReadResult) :
    (cleanFile pf reads).2.1 = none ∧
    ((∀ r ∈ rowsRead reads, validateRow pf r.record = none) →
      (cleanFile pf reads).1 = [] ∧
      (cleanFile pf reads).2.2.length = (rowsRead reads).length) := by
  refine ⟨rfl, fun hall => ?_⟩
  have hcount := runFrom_count pf reads 1
  have hnil : (cleanFile pf reads).1 = [] := by
    rw [List.eq_nil_iff_forall_not_mem]
    intro out hout
    obtain ⟨r, hr, hv⟩ := (mem_cleanFile_iff pf reads out).1 hout
    rw [hall r hr] at hv
    cases hv
  refine ⟨hnil, ?_⟩
  rw [cleanFile_eq_runFrom] at hnil ⊢
  simp only at hnil ⊢
  rw [hnil] at hcount
  simpa using hcount

/-- Witness of C11: an input of two rows, both malformed. -/
theorem C11_error_always_nil_witness :
    (cleanFile ParseFloat
        [row ["5.1", "hello", "1.4", "0.2", "setosa"], row ["5.1", "3.5", "1.4", "0.2", ""]]).2.1
        = none ∧
      (cleanFile ParseFloat
        [row ["5.1", "hello", "1.4", "0.2", "setosa"], row ["5.1", "3.5", "1.4", "0.2", ""]]).1
        = [] ∧
      (cleanFile ParseFloat
        [row ["5.1", "hello", "1.4", "0.2", "setosa"],
          row ["5.1", "3.5", "1.4", "0.2", ""]]).2.2.length
        = (rowsRead [row ["5.1", "hello", "1.4", "0.2", "setosa"],
            row ["5.1", "3.5", "1.4", "0.2", ""]]).length :=
  ⟨(C11_error_always_nil ParseFloat
      [row ["5.1", "hello", "1.4", "0.2", "setosa"], row ["5.1", "3.5", "1.4", "0.2", ""]]).1,
    (C11_error_always_nil ParseFloat
      [row ["5.1", "hello", "1.4", "0.2", "setosa"], row ["5.1", "3.5", "1.4", "0.2", ""]]).2
      (by decide)⟩

/-- C12: the line number cited in a message counts every row read, from 1: when
the row read after the rows `pre` (the row number `pre.length + 1`) is dropped,
the one message logged for it is
`Parsing line <pre.length + 1> failed, unexpected type in column <c>`, whatever
the rows `pre` are and however many of them were dropped. -/
theorem C12_line_counts_every_row (pf : String → Option Float64) (pre post : List ReadResult)
    (r : ReadResult)
    (hpre : ∀ x ∈ pre, x.err ≠ some ReadError.EOF) (hr : r.err ≠ some ReadError.EOF)
    (hdrop : (parseValues pf (pre.length + 1) r.record 0 CSVRecord.zero).1.ParseError ≠ none) :
    ∃ c : Nat,
      (cleanFile pf (pre ++ r :: post)).2.2 =
        (cleanFile pf pre).2.2
          ++ ["Parsing line " ++ toString (pre.length + 1)
                ++ " failed, unexpected type in column " ++ toString c ++ "\n"]
          ++ (runFrom pf (pre.length + 2) post).logged ∧
      (cleanFile pf pre).2.2.length ≤ pre.length ∧
      (readLoop pf pre LoopState.init).line = pre.length + 1 := by
  have hv : validateRow pf r.record = none := (parseValues_dropped_iff pf _ r.record).1 hdrop
  have hline : (readLoop pf pre LoopState.init).line = pre.length + 1 := by
    rw [readLoop_line pf pre hpre LoopState.init]
    simp [LoopState.init, Nat.add_comm]
  have hlen : (cleanFile pf pre).2.2.length ≤ pre.length := by
    have hcount := runFrom_count pf pre 1
    have hle : (rowsRead pre).length ≤ pre.length := by
      unfold rowsRead
      exact (List.takeWhile_sublist _).length_le
    rw [cleanFile_eq_runFrom]
    simp only
    omega
  rcases row_dichotomy pf (pre.length + 1) r.record with ⟨out, h1, _⟩ | ⟨c, _, h2, h3⟩
  · rw [hv] at h1; cases h1
  · refine ⟨c, ?_, hlen, hline⟩
    rw [cleanFile_split pf pre post r hpre hr, h3]
    rfl

/-- Witness of C12: the third row read is dropped after one kept and one dropped
row. -/
theorem C12_line_counts_every_row_witness :
    ∃ c : Nat,
      (cleanFile ParseFloat
          ([row ["4.9", "3.0", "1.4", "0.2", "setosa"], row ["x", "3.0", "1.4", "0.2", "setosa"]]
            ++ row ["5.1", "3.5", "1.4", "0.2", ""] :: [])).2.2 =
        (cleanFile ParseFloat
            [row ["4.9", "3.0", "1.4", "0.2", "setosa"],
              row ["x", "3.0", "1.4", "0.2", "setosa"]]).2.2
          ++ ["Parsing line " ++ toString (2 + 1)
                ++ " failed, unexpected type in column " ++ toString c ++ "\n"]
          ++ (runFrom ParseFloat (2 + 2) []).logged ∧
      (cleanFile ParseFloat
          [row ["4.9", "3.0", "1.4", "0.2", "setosa"],
            row ["x", "3.0", "1.4", "0.2", "setosa"]]).2.2.length ≤ 2 ∧
      (readLoop ParseFloat
          [row ["4.9", "3.0", "1.4", "0.2", "setosa"], row ["x", "3.0", "1.4", "0.2", "setosa"]]
          LoopState.init).line = 2 + 1 :=
  C12_line_counts_every_row ParseFloat
    [row ["4.9", "3.0", "1.4", "0.2", "setosa"], row ["x", "3.0", "1.4", "0.2", "setosa"]] []
    (row ["5.1", "3.5", "1.4", "0.2", ""]) (by decide) (by decide) (by decide)

/-- C13: every record in the sequence returned by `cleanFile` has a nil
`ParseError`; and a pass of the loop whose record got a `ParseError` during
parsing appends nothing to `csvData`. -/
theorem C13_no_parse_error_in_result (pf : String → Option Float64) (reads : List ReadResult) :
    (∀ out ∈ (cleanFile pf reads).1, out.ParseError = none) ∧
    (∀ (s : LoopState) (record : List String),
      (parseValues pf s.line record 0 CSVRecord.zero).1.ParseError ≠ none →
        (processRecord pf s record).csvData = s.csvData) := by
  refine ⟨fun out hout => ?_, fun s record h => ?_⟩
  · obtain ⟨r, _, hv⟩ := (mem_cleanFile_iff pf reads out).1 hout
    exact validateRow_ParseError pf r.record out hv
  · simp [processRecord, h]

/-- Witness of C13: the record kept from an input of one valid and one malformed
row, and the pass of the loop over the malformed row. -/
theorem C13_no_parse_error_in_result_witness :
    (({ SepalLength := ⟨0x4014666666666666⟩, SepalWidth := ⟨0x400C000000000000⟩,
        PetalLength := ⟨0x3FF6666666666666⟩, PetalWidth := ⟨0x3FC999999999999A⟩,
        Species := "setosa", ParseError := none } : CSVRecord).ParseError = none) ∧
    (processRecord ParseFloat LoopState.init ["5.1", "hello", "1.4", "0.2", "setosa"]).csvData
      = LoopState.init.csvData :=
  ⟨(C13_no_parse_error_in_result ParseFloat
      [row ["5.1", "3.5", "1.4", "0.2", "setosa"],
        row ["5.1", "hello", "1.4", "0.2", "setosa"]]).1 _ (by decide),
    (C13_no_parse_error_in_result ParseFloat []).2 LoopState.init
      ["5.1", "hello", "1.4", "0.2", "setosa"] (by decide)⟩

/-- C14: a row with more than five fields whose first five fields are well-formed
is kept if and only if every field of index 5 or more parses as a float; when
kept, its record holds the values of the fields 0-4 only and nothing is logged;
when dropped, the one message cites the smallest index `5 + j` whose field does
not parse. -/
theorem C14_extra_fields (pf : String → Option Float64) (pre post : List ReadResult)
    (r : ReadResult) (f0 f1 f2 f3 f4 : String) (extra : List String) (v0 v1 v2 v3 : Float64)
    (hpre : ∀ x ∈ pre, x.err ≠ some ReadError.EOF) (hr : r.err ≠ some ReadError.EOF)
    (hrec : r.record = f0 :: f1 :: f2 :: f3 :: f4 :: extra) (_hextra : extra ≠ [])
    (h0 : pf f0 = some v0) (h1 : pf f1 = some v1) (h2 : pf f2 = some v2)
    (h3 : pf f3 = some v3) (h4 : f4 ≠ "") :
    ((cleanFile pf (pre ++ r :: post)).1 =
        (cleanFile pf pre).1
          ++ [{ SepalLength := v0, SepalWidth := v1, PetalLength := v2, PetalWidth := v3,
                Species := f4, ParseError := none }]
          ++ (runFrom pf (pre.length + 2) post).csvData ↔
      ∀ w ∈ extra, pf w ≠ none) ∧
    ((∀ w ∈ extra, pf w ≠ none) →
      cleanFile pf (pre ++ r :: post) =
        ((cleanFile pf pre).1
          ++ [{ SepalLength := v0, SepalWidth := v1, PetalLength := v2, PetalWidth := v3,
                Species := f4, ParseError := none }]
          ++ (runFrom pf (pre.length + 2) post).csvData,
        none,
        (cleanFile pf pre).2.2 ++ (runFrom pf (pre.length + 2) post).logged)) ∧
    (∀ (j : Nat) (w : String), extra[j]? = some w → pf w = none →
      (∀ (i : Nat) (x : String), i < j → extra[i]? = some x → pf x ≠ none) →
      cleanFile pf (pre ++ r :: post) =
        ((cleanFile pf pre).1 ++ (runFrom pf (pre.length + 2) post).csvData,
        none,
        (cleanFile pf pre).2.2 ++ [logMsg (pre.length + 1) (5 + j)]
          ++ (runFrom pf (pre.length + 2) post).logged)) := by
  have hvr : validateRow pf r.record = validateFrom pf extra 5
      (CSVRecord.mk v0 v1 v2 v3 f4 none) := by
    simp [hrec, validateRow, validateFrom, h0, h1, h2, h3, h4, setFloat, CSVRecord.zero]
  have hfi : failIndex pf r.record 0 = failIndex pf extra 5 := by
    simp [hrec, failIndex, h0, h1, h2, h3, h4]
  have hsplit := cleanFile_split pf pre post r hpre hr
  have hkept : (∀ w ∈ extra, pf w ≠ none) →
      validateRow pf r.record = some (CSVRecord.mk v0 v1 v2 v3 f4 none) ∧ failIndex pf r.record 0 = none := by
    intro hall
    have hnone : failIndex pf extra 5 = none := by
      refine (failIndex_none_iff pf extra 5).2 (fun i w hw => ?_)
      have hne : 5 + i ≠ 4 := by omega
      have hp := hall w (List.getElem?_mem hw)
      cases hpw : pf w with
      | none => exact absurd hpw hp
      | some x => simp [valueFails, hne, hpw]
    have hsome := validateFrom_isSome pf extra 5
      (CSVRecord.mk v0 v1 v2 v3 f4 none)
    rw [hnone] at hsome
    cases hv : validateFrom pf extra 5
        (CSVRecord.mk v0 v1 v2 v3 f4 none) with
    | none => rw [hv] at hsome; simp at hsome
    | some out =>
      have := validateFrom_late pf extra 5 _ out (by omega) hv
      rw [hvr, hv, this, hfi]
      exact ⟨rfl, hnone⟩
  have hdropped : ¬ (∀ w ∈ extra, pf w ≠ none) → validateRow pf r.record = none := by
    intro hnot
    cases hf : failIndex pf extra 5 with
    | none =>
      exfalso
      apply hnot
      intro w hw hpw
      obtain ⟨i, hget2⟩ := List.getElem?_of_mem hw
      have := (failIndex_none_iff pf extra 5).1 hf i w hget2
      have hne : 5 + i ≠ 4 := by omega
      simp [valueFails, hne, hpw] at this
    | some c => exact validateRow_of_fail pf r.record c (by rw [hfi]; exact hf)
  refine ⟨⟨fun heq => ?_, fun hall => ?_⟩, fun hall => ?_, fun j w hw hpw hmin => ?_⟩
  · by_contra hnot
    rw [hsplit, hdropped hnot] at heq
    have := congrArg List.length heq
    simp at this
  · rw [hsplit, (hkept hall).1]
    simp
  · rw [hsplit, (hkept hall).1]
    simp [rowLog, (hkept hall).2]
  · have hf : failIndex pf extra 5 = some (5 + j) := by
      refine (failIndex_some_iff pf extra 5 j).2 ⟨⟨w, hw, ?_⟩, fun i x hi hx => ?_⟩
      · have hne : 5 + j ≠ 4 := by omega
        simp [valueFails, hne, hpw]
      · have hne : 5 + i ≠ 4 := by omega
        have hp := hmin i x hi hx
        cases hpx : pf x with
        | none => exact absurd hpx hp
        | some y => simp [valueFails, hne, hpx]
    have hf0 : failIndex pf r.record 0 = some (5 + j) := by rw [hfi]; exact hf
    rw [hsplit, validateRow_of_fail pf r.record _ hf0]
    simp [rowLog, hf0]

/-- Witness of C14: the six-field row `5.1,3.5,1.4,0.2,setosa,7`, read first. -/
theorem C14_extra_fields_witness :
    cleanFile ParseFloat ([] ++ row ["5.1", "3.5", "1.4", "0.2", "setosa", "7"] :: []) =
      ((cleanFile ParseFloat []).1
        ++ [{ SepalLength := ⟨0x4014666666666666⟩, SepalWidth := ⟨0x400C000000000000⟩,
              PetalLength := ⟨0x3FF6666666666666⟩, PetalWidth := ⟨0x3FC999999999999A⟩,
              Species := "setosa", ParseError := none }]
        ++ (runFrom ParseFloat (0 + 2) []).csvData,
      none,
      (cleanFile ParseFloat []).2.2 ++ (runFrom ParseFloat (0 + 2) []).logged) :=
  (C14_extra_fields ParseFloat [] [] (row ["5.1", "3.5", "1.4", "0.2", "setosa", "7"])
    "5.1" "3.5" "1.4" "0.2" "setosa" ["7"]
    ⟨0x4014666666666666⟩ ⟨0x400C000000000000⟩ ⟨0x3FF6666666666666⟩ ⟨0x3FC999999999999A⟩
    (by decide) (by decide) rfl (by decide) (by decide) (by decide) (by decide) (by decide)
    (by decide)).2.1 (by decide)

/-- C15: an error of the reader other than `io.EOF` changes nothing: the record
returned with it is processed as if it had been read without error, and the rows
after it are still read; a record of no fields returned with such an error is
kept as a record with four zero numeric fields, an empty `Species` and a nil
`ParseError`, and nothing is logged for it; `io.EOF` ends the loop, whatever
would follow, and adds no record and no message. -/
theorem C15_read_errors (pf : String → Option Float64) (pre post : List ReadResult)
    (record : List String) (msg : String)
    (hpre : ∀ x ∈ pre, x.err ≠ some ReadError.EOF) :
    cleanFile pf (pre ++ { record := record, err := some (ReadError.other msg) } :: post) =
      cleanFile pf (pre ++ { record := record, err := none } :: post) ∧
    cleanFile pf (pre ++ { record := [], err := some (ReadError.other msg) } :: post) =
      ((cleanFile pf pre).1
        ++ [{ SepalLength := ⟨0⟩, SepalWidth := ⟨0⟩, PetalLength := ⟨0⟩, PetalWidth := ⟨0⟩,
              Species := "", ParseError := none }]
        ++ (runFrom pf (pre.length + 2) post).csvData,
      none,
      (cleanFile pf pre).2.2 ++ (runFrom pf (pre.length + 2) post).logged) ∧
    cleanFile pf (pre ++ { record := record, err := some ReadError.EOF } :: post) =
      cleanFile pf pre := by
  refine ⟨?_, ?_, ?_⟩
  · rw [cleanFile_split pf pre post _ hpre (by simp),
      cleanFile_split pf pre post _ hpre (by simp)]
  · rw [cleanFile_split pf pre post _ hpre (by simp)]
    simp [validateRow, validateFrom, rowLog, failIndex, CSVRecord.zero, Float64.zero]
  · simp only [cleanFile]
    rw [readLoop_append pf pre _ hpre]
    simp [readLoop]

/-- Witness of C15: after one kept row, a read error with the two-field record
`5.1,hello`, a read error with no fields, and `io.EOF` before a further row. -/
theorem C15_read_errors_witness :
    cleanFile ParseFloat
        ([row ["4.9", "3.0", "1.4", "0.2", "setosa"]]
          ++ { record := ["5.1", "hello"], err := some (ReadError.other "wrong number of fields") }
            :: [row ["5.1", "3.5", "1.4", "0.2", "setosa"]]) =
      cleanFile ParseFloat
        ([row ["4.9", "3.0", "1.4", "0.2", "setosa"]]
          ++ { record := ["5.1", "hello"], err := none }
            :: [row ["5.1", "3.5", "1.4", "0.2", "setosa"]]) ∧
    cleanFile ParseFloat
        ([row ["4.9", "3.0", "1.4", "0.2", "setosa"]]
          ++ { record := [], err := some (ReadError.other "wrong number of fields") }
            :: [row ["5.1", "3.5", "1.4", "0.2", "setosa"]]) =
      ((cleanFile ParseFloat [row ["4.9", "3.0", "1.4", "0.2", "setosa"]]).1
        ++ [{ SepalLength := ⟨0⟩, SepalWidth := ⟨0⟩, PetalLength := ⟨0⟩, PetalWidth := ⟨0⟩,
              Species := "", ParseError := none }]
        ++ (runFrom ParseFloat (1 + 2) [row ["5.1", "3.5", "1.4", "0.2", "setosa"]]).csvData,
      none,
      (cleanFile ParseFloat [row ["4.9", "3.0", "1.4", "0.2", "setosa"]]).2.2
        ++ (runFrom ParseFloat (1 + 2) [row ["5.1", "3.5", "1.4", "0.2", "setosa"]]).logged) ∧
    cleanFile ParseFloat
        ([row ["4.9", "3.0", "1.4", "0.2", "setosa"]]
          ++ { record := ["5.1", "hello"], err := some ReadError.EOF }
            :: [row ["5.1", "3.5", "1.4", "0.2", "setosa"]]) =
      cleanFile ParseFloat [row ["4.9", "3.0", "1.4", "0.2", "setosa"]] :=
  C15_read_errors ParseFloat [row ["4.9", "3.0", "1.4", "0.2", "setosa"]]
    [row ["5.1", "3.5", "1.4", "0.2", "setosa"]] ["5.1", "hello"] "wrong number of fields"
    (by decide)

end Exercise2
